import Mathlib

/-!
# Verification of the rez LCU connector / capture / replay core

Shallow embedding of the event-normalization, lockfile-parsing, capture-file
writing, and replay-stepping code of the repository (src/app.go,
src/connector.go, src/capture/main.go, src/internal/mockreplay/replay.go,
src/capture/mock-champ-select/main.go), together with theorems settling the
spec's claims about it.

JSON values decoded by Go's `encoding/json` into `interface{}` are modelled by
the inductive `Json` below.  Numbers are carried as their source lexeme (a
`String`): no modelled function ever inspects a numeric value, so the float64
representation is irrelevant.  Go maps decoded from JSON have unique keys;
objects are modelled as association lists looked up by first match.
-/

namespace Rez

/-- A dynamically-typed JSON value, the model of Go's `interface{}` trees
produced by `json.Unmarshal` (string ↦ `str`, number lexeme ↦ `num`,
`[]interface{}` ↦ `arr`, `map[string]interface{}` ↦ `obj`). -/
inductive Json where
  | null : Json
  | bool (b : Bool) : Json
  | num (lexeme : String) : Json
  | str (s : String) : Json
  | arr (elems : List Json) : Json
  | obj (fields : List (String × Json)) : Json

/-! ### Character-level string helpers

Models of the Go standard-library string functions used by the embedded
code.  They are written over `String.data` with structural recursion (rather
than through the core `String` API) so that every definition in this file
reduces inside the kernel. -/

/-- Go `unicode.IsSpace` restricted to ASCII (all inputs in play are
ASCII). -/
def goIsSpace (c : Char) : Bool :=
  c = ' ' || c = '\t' || c = '\n' || c = '\x0b' || c = '\x0c' || c = '\r'

/-- Model of Go `strings.TrimSpace`. -/
def goTrimSpace (s : String) : String :=
  String.mk (((s.data.dropWhile goIsSpace).reverse.dropWhile goIsSpace).reverse)

def splitOnCharAux (sep : Char) (acc : List Char) : List Char → List String
  | [] => [String.mk acc.reverse]
  | c :: cs =>
      if c = sep then String.mk acc.reverse :: splitOnCharAux sep [] cs
      else splitOnCharAux sep (c :: acc) cs

/-- Model of Go `strings.Split` with a one-character separator (the only
form the embedded code uses). -/
def splitOnChar (sep : Char) (s : String) : List String :=
  splitOnCharAux sep [] s.data

/-- Model of `strings.Join` / the concatenation underlying repeated separators. -/
def joinSep (sep : String) : List String → String
  | [] => ""
  | [x] => x
  | x :: xs => x ++ sep ++ joinSep sep xs

/-- ASCII lowercasing (model of `strings.ToLower` on ASCII input). -/
def asciiToLower (s : String) : String :=
  String.mk (s.data.map Char.toLower)

/-- Model of `strings.HasPrefix`. -/
def goStartsWith (s pre : String) : Bool :=
  pre.data.isPrefixOf s.data

/-- Model of `strings.TrimPrefix` under the knowledge that the prefix is present. -/
def goCutLeader (s pre : String) : String :=
  String.mk (s.data.drop pre.data.length)

/-- Go map lookup `m[key]` on a decoded JSON object (keys are unique, so
first-match association-list lookup is faithful). -/
def lookupJson (fields : List (String × Json)) (key : String) : Option Json :=
  match fields with
  | [] => none
  | (k, v) :: rest => if k = key then some v else lookupJson rest key

/-- Model of Go `strings.EqualFold` restricted to ASCII (simple case folding);
every string compared in this development is ASCII. -/
def asciiEqualFold (a b : String) : Bool :=
  asciiToLower a == asciiToLower b

/-! ## src/app.go — extractChampSelect (lines 567–598)

```go
func (a *App) extractChampSelect(raw interface{}) (map[string]interface{}, bool) {
    var event map[string]interface{}
    ended := false
    switch v := raw.(type) {
    case []interface{}:
        if len(v) >= 3 {
            if m, ok := v[2].(map[string]interface{}); ok { event = m }
        }
    case map[string]interface{}:
        event = v
    default:
        return nil, false
    }
    if event == nil { return nil, false }
    if et, ok := event["eventType"].(string); ok && strings.EqualFold(et, "Delete") {
        ended = true
    }
    if data, ok := event["data"].(map[string]interface{}); ok { return data, ended }
    return event, ended
}
```
-/

/-- The candidate event selected by `extractChampSelect`'s type switch:
arrays of length ≥ 3 contribute element 2 when it is an object, bare objects
contribute themselves, everything else contributes nothing. -/
def candidateEvent (raw : Json) : Option (List (String × Json)) :=
  match raw with
  | .arr v =>
      if v.length ≥ 3 then
        match v.get? 2 with
        | some (Json.obj m) => some m
        | _ => none
      else none
  | .obj m => some m
  | _ => none

/-- Model of `extractChampSelect` (src/app.go:567–598): returns the normalized
body (`none` models Go's nil map) and the `ended` flag. -/
def extractChampSelect (raw : Json) : Option (List (String × Json)) × Bool :=
  match candidateEvent raw with
  | none => (none, false)
  | some event =>
      let ended :=
        match lookupJson event "eventType" with
        | some (.str et) => asciiEqualFold et "Delete"
        | _ => false
      match lookupJson event "data" with
      | some (.obj data) => (some data, ended)
      | _ => (some event, ended)

/-! ## src/connector.go — lockfile parsing (onFileCreated, lines 231–256)

```go
parts := strings.Split(strings.TrimSpace(string(data)), ":")
if len(parts) < 5 { return }
info := ConnectionInfo{
    Protocol: parts[4], Address: "127.0.0.1", Port: parts[2],
    Username: "riot", Password: parts[3],
}
```
`strings.TrimSpace` is modelled by `String.trim` (identical on ASCII
whitespace, which is all a lockfile contains); `strings.Split` on `":"` is
`String.splitOn ":"`.
-/

structure ConnectionInfo where
  protocol : String
  address : String
  port : String
  username : String
  password : String

/-- The pure parsing core of `onFileCreated` (src/connector.go:231–256; the
identical code also appears at src/capture/main.go:548–571): `none` models the
early `return` (no state change, no connect event) taken when the trimmed
content splits into fewer than 5 colon-delimited fields. -/
def parseLockfile (content : String) : Option ConnectionInfo :=
  let parts := splitOnChar ':' (goTrimSpace content)
  if parts.length < 5 then none
  else some {
    protocol := parts.getD 4 ""
    address := "127.0.0.1"
    port := parts.getD 2 ""
    username := "riot"
    password := parts.getD 3 "" }

/-! ## src/connector.go — websocket read loop (handleWebSocket, lines 319–385)

Per received frame (already unmarshalled into a `Json` payload):

```go
var payload []any
if err := json.Unmarshal(data, &payload); err != nil || len(payload) < 3 { continue }
eventType, ok := payload[1].(string)
if !ok || eventType != "OnJsonApiEvent_lol-champ-select_v1_session" { continue }
body, _ := json.Marshal(payload[2])
var champData struct { EventType string `json:"eventType"`; Data ChampSelectSession `json:"data"` }
if err := json.Unmarshal(body, &champData); err != nil { continue }
if champData.EventType == "Delete" {
    select { case l.OnChampSelectEnded <- struct{}{}: default: }
    continue
}
select { case l.OnChampSelect <- champData.Data: default: }
```

The re-marshal/unmarshal of `payload[2]` into the struct is modelled by
`decodeChampData`: it fails when `payload[2]` is not an object/null or when
its `eventType` field is present but not a string, and otherwise yields the
`eventType` string (Go zero value `""` when absent) together with the raw
`data` field.  Go additionally validates the `data` subtree against the
70-field `ChampSelectSession` schema and drops the frame on a mismatch; that
nested validation is abstracted here (it only shrinks the set of frames that
produce emissions and never changes how an accepted frame is routed, which is
all the claims are about), except for the top-level check that `data`, when
present, is an object or null.
-/

def champSelectFeed : String := "OnJsonApiEvent_lol-champ-select_v1_session"

/-- Model of unmarshalling `payload[2]` into the anonymous
`{EventType string; Data ChampSelectSession}` struct; see the section
comment for the faithfulness note on the nested `data` schema. -/
def decodeChampData (body : Json) : Option (String × Json) :=
  match body with
  | .null => some ("", Json.null)
  | .obj fields =>
      let et? : Option String :=
        match lookupJson fields "eventType" with
        | none => some ""
        | some (.str s) => some s
        | some .null => some ""
        | some _ => none
      match et?, lookupJson fields "data" with
      | some et, none => some (et, Json.null)
      | some et, some Json.null => some (et, Json.null)
      | some et, some (Json.obj d) => some (et, Json.obj d)
      | _, _ => none
  | _ => none

/-- One emission of the live connector's read loop. -/
inductive ConnEmit where
  | champSelect (data : Json) : ConnEmit
  | champSelectEnded : ConnEmit

/-- Channel sends attempted by one iteration of `handleWebSocket`
(src/connector.go:343–383) for one unmarshalled frame payload.  A `Delete`
frame (exact, case-sensitive comparison at line 369) sends only
`OnChampSelectEnded` and `continue`s; every other accepted frame sends only
`OnChampSelect` with the decoded data. -/
def connectorFrameEmissions (payload : Json) : List ConnEmit :=
  match payload with
  | .arr elems =>
      if elems.length < 3 then []
      else
        match elems.get? 1 with
        | some (.str feed) =>
            if feed ≠ champSelectFeed then []
            else
              match elems.get? 2 with
              | some body =>
                  match decodeChampData body with
                  | none => []
                  | some (et, data) =>
                      if et = "Delete" then [ConnEmit.champSelectEnded]
                      else [ConnEmit.champSelect data]
              | none => []
        | _ => []
  | _ => []

/-! ## src/capture/main.go — websocket read loop (handleWebSocket, lines 628–683)

Same routing preamble, but the capture tool forwards the *whole raw payload*
and does not `continue` after signalling the end:

```go
rawPayload := payload
if len(payload) >= 3 {
    if eventData, ok := payload[2].(map[string]interface{}); ok {
        if eventType, ok := eventData["eventType"].(string); ok && eventType == "Delete" {
            select { case l.OnChampSelectEnded <- struct{}{}: default: }
        }
    }
}
select { case l.OnChampSelect <- rawPayload: default: }
```
-/

/-- One emission of the capture tool's read loop (`OnChampSelect` carries the
complete raw payload there). -/
inductive CapEmit where
  | champSelect (rawPayload : Json) : CapEmit
  | champSelectEnded : CapEmit

/-- Channel sends attempted by one iteration of the capture tool's
`handleWebSocket` (src/capture/main.go:639–681) for one frame payload: a
`Delete` frame (exact comparison at line 667) sends the ended signal *and*
then the raw payload; every other accepted frame sends only the raw payload. -/
def captureFrameEmissions (payload : Json) : List CapEmit :=
  match payload with
  | .arr elems =>
      if elems.length < 3 then []
      else
        match elems.get? 1 with
        | some (.str feed) =>
            if feed ≠ champSelectFeed then []
            else
              let endedEmit : List CapEmit :=
                match elems.get? 2 with
                | some (.obj eventData) =>
                    match lookupJson eventData "eventType" with
                    | some (.str et) => if et = "Delete" then [CapEmit.champSelectEnded] else []
                    | _ => []
                | _ => []
              endedEmit ++ [CapEmit.champSelect payload]
        | _ => []
  | _ => []

/-! ## src/connector.go — Stop (lines 140–145) and Go channel-close semantics

```go
func (l *LCUConnector) Stop() {
    l.clearWebSocket()
    l.clearLockfileWatcher()
    l.clearProcessWatcher()
    close(l.stopCh)
}
```

Go's `close` on an already-closed channel panics with
"close of closed channel"; `closeCh` models this with `Except`.  The three
`clear*` calls nil out handles and never panic; the handle fields are
modelled as presence flags.
-/

/-- A Go channel's closed/open state (only closing is relevant here). -/
structure GoChannel where
  closed : Bool

/-- Go `close(ch)`: panics ("close of closed channel") when the channel is
already closed. -/
def closeCh (ch : GoChannel) : Except String GoChannel :=
  if ch.closed then Except.error "close of closed channel"
  else Except.ok { closed := true }

/-- The `LCUConnector` handle state relevant to `Stop`. -/
structure ConnectorHandles where
  wsConn : Bool
  lockfileWatcher : Bool
  processTicker : Bool
  stopCh : GoChannel

/-- A freshly constructed connector (`New`, src/connector.go:118–130): open
stop channel, no active handles yet. -/
def freshConnector : ConnectorHandles :=
  { wsConn := false, lockfileWatcher := false, processTicker := false,
    stopCh := { closed := false } }

/-- Model of `LCUConnector.Stop` (src/connector.go:140–145): tear down the
socket, watcher and ticker (never panics), then `close(l.stopCh)` —
unconditionally, with no `sync.Once` guard. -/
def connectorStop (l : ConnectorHandles) : Except String ConnectorHandles :=
  let l' : ConnectorHandles :=
    { l with wsConn := false, lockfileWatcher := false, processTicker := false }
  match closeCh l'.stopCh with
  | Except.error e => Except.error e
  | Except.ok ch => Except.ok { l' with stopCh := ch }

/-! ## A JSON text parser modelling `encoding/json` unmarshalling of bytes

`json.Unmarshal(data, &v)` for an untyped target succeeds iff `data` is one
complete JSON value followed only by whitespace.  The parser below is a
standard fuel-indexed recursive-descent parser over the byte/char list; it is
used to model validity of the capture file (claim about `capture/main.go`'s
finalized output) and the `json.Unmarshal` calls inside
`mockreplay.summarize`, which operate on raw captured bytes. -/

def isJsonWs (c : Char) : Bool :=
  c = ' ' || c = '\t' || c = '\n' || c = '\r'

def skipWs : List Char → List Char
  | [] => []
  | c :: cs => if isJsonWs c then skipWs cs else c :: cs

def hexVal (c : Char) : Option Nat :=
  if '0' ≤ c ∧ c ≤ '9' then some (c.toNat - '0'.toNat)
  else if 'a' ≤ c ∧ c ≤ 'f' then some (c.toNat - 'a'.toNat + 10)
  else if 'A' ≤ c ∧ c ≤ 'F' then some (c.toNat - 'A'.toNat + 10)
  else none

/-- Parse the remainder of a JSON string literal (opening quote already
consumed), decoding escapes. -/
def pStringRest (acc : List Char) : Nat → List Char → Option (String × List Char)
  | 0, _ => none
  | _, [] => none
  | fuel + 1, c :: cs =>
      if c = '"' then some (String.mk acc.reverse, cs)
      else if c = '\\' then
        match cs with
        | [] => none
        | e :: cs' =>
            if e = '"' then pStringRest ('"' :: acc) fuel cs'
            else if e = '\\' then pStringRest ('\\' :: acc) fuel cs'
            else if e = '/' then pStringRest ('/' :: acc) fuel cs'
            else if e = 'b' then pStringRest ('\x08' :: acc) fuel cs'
            else if e = 'f' then pStringRest ('\x0c' :: acc) fuel cs'
            else if e = 'n' then pStringRest ('\n' :: acc) fuel cs'
            else if e = 'r' then pStringRest ('\r' :: acc) fuel cs'
            else if e = 't' then pStringRest ('\t' :: acc) fuel cs'
            else if e = 'u' then
              match cs' with
              | h1 :: h2 :: h3 :: h4 :: cs'' =>
                  match hexVal h1, hexVal h2, hexVal h3, hexVal h4 with
                  | some a, some b, some c3, some d =>
                      pStringRest (Char.ofNat (((a * 16 + b) * 16 + c3) * 16 + d) :: acc) fuel cs''
                  | _, _, _, _ => none
              | _ => none
            else none
      else pStringRest (c :: acc) fuel cs

def isDigit (c : Char) : Bool := '0' ≤ c && c ≤ '9'

def spanDigits : List Char → List Char × List Char
  | [] => ([], [])
  | c :: cs =>
      if isDigit c then
        let (ds, rest) := spanDigits cs
        (c :: ds, rest)
      else ([], c :: cs)

/-- Parse a JSON number (grammar of RFC 8259, which is what `encoding/json`
enforces), returning its lexeme. -/
def pNumber (input : List Char) : Option (String × List Char) :=
  let (sign, rest0) :=
    match input with
    | '-' :: cs => (['-'], cs)
    | cs => (([] : List Char), cs)
  match rest0 with
  | [] => none
  | c :: cs =>
      if c = '0' then
        let (frac, rest1) := pFracExp cs
        some (String.mk (sign ++ ['0'] ++ frac), rest1)
      else if isDigit c then
        let (ds, rest1) := spanDigits cs
        let (frac, rest2) := pFracExp rest1
        some (String.mk (sign ++ (c :: ds) ++ frac), rest2)
      else none
where
  pFracExp (input : List Char) : List Char × List Char :=
    let (fracPart, rest1) :=
      match input with
      | '.' :: cs =>
          match spanDigits cs with
          | ([], _) => ([], '.' :: cs)
          | (ds, rest) => ('.' :: ds, rest)
      | cs => ([], cs)
    match rest1 with
    | e :: cs =>
        if e = 'e' || e = 'E' then
          match cs with
          | s :: cs' =>
              if s = '+' || s = '-' then
                match spanDigits cs' with
                | ([], _) => (fracPart, rest1)
                | (ds, rest) => (fracPart ++ e :: s :: ds, rest)
              else
                match spanDigits cs with
                | ([], _) => (fracPart, rest1)
                | (ds, rest) => (fracPart ++ e :: ds, rest)
          | [] => (fracPart, rest1)
        else (fracPart, rest1)
    | [] => (fracPart, rest1)

mutual

/-- Parse one JSON value (leading whitespace allowed). -/
def pValue : Nat → List Char → Option (Json × List Char)
  | 0, _ => none
  | fuel + 1, input =>
      match skipWs input with
      | [] => none
      | c :: cs =>
          if c = '"' then
            match pStringRest [] (fuel + 1) cs with
            | some (s, rest) => some (Json.str s, rest)
            | none => none
          else if c = '{' then pObjBody fuel cs
          else if c = '[' then pArrBody fuel cs
          else if c = 't' then
            match cs with
            | 'r' :: 'u' :: 'e' :: rest => some (Json.bool true, rest)
            | _ => none
          else if c = 'f' then
            match cs with
            | 'a' :: 'l' :: 's' :: 'e' :: rest => some (Json.bool false, rest)
            | _ => none
          else if c = 'n' then
            match cs with
            | 'u' :: 'l' :: 'l' :: rest => some (Json.null, rest)
            | _ => none
          else
            match pNumber (c :: cs) with
            | some (lexeme, rest) => some (Json.num lexeme, rest)
            | none => none

/-- Parse an object body (after `{`). -/
def pObjBody : Nat → List Char → Option (Json × List Char)
  | 0, _ => none
  | fuel + 1, input =>
      match skipWs input with
      | '}' :: rest => some (Json.obj [], rest)
      | other => pMembers fuel [] other

/-- Parse one or more `"key": value` members, then `}`. -/
def pMembers : Nat → List (String × Json) → List Char → Option (Json × List Char)
  | 0, _, _ => none
  | fuel + 1, acc, input =>
      match skipWs input with
      | '"' :: cs =>
          match pStringRest [] (fuel + 1) cs with
          | some (key, rest1) =>
              match skipWs rest1 with
              | ':' :: rest2 =>
                  match pValue fuel rest2 with
                  | some (v, rest3) =>
                      match skipWs rest3 with
                      | ',' :: rest4 => pMembers fuel ((key, v) :: acc) rest4
                      | '}' :: rest4 => some (Json.obj ((key, v) :: acc).reverse, rest4)
                      | _ => none
                  | none => none
              | _ => none
          | none => none
      | _ => none

/-- Parse an array body (after `[`). -/
def pArrBody : Nat → List Char → Option (Json × List Char)
  | 0, _ => none
  | fuel + 1, input =>
      match skipWs input with
      | ']' :: rest => some (Json.arr [], rest)
      | other => pElems fuel [] other

/-- Parse one or more array elements, then `]`. -/
def pElems : Nat → List Json → List Char → Option (Json × List Char)
  | 0, _, _ => none
  | fuel + 1, acc, input =>
      match pValue fuel input with
      | some (v, rest1) =>
          match skipWs rest1 with
          | ',' :: rest2 => pElems fuel (v :: acc) rest2
          | ']' :: rest2 => some (Json.arr (v :: acc).reverse, rest2)
          | _ => none
      | none => none

end

/-- Model of `json.Unmarshal` into an untyped target: one JSON value, with
only whitespace around it. -/
def parseJson (s : String) : Option Json :=
  match pValue (2 * s.length + 2) s.data with
  | some (v, rest) => if (skipWs rest).isEmpty then some v else none
  | none => none

/-- Does the byte string parse as a complete JSON document? -/
def isValidJson (s : String) : Bool :=
  (parseJson s).isSome

/-! ## A serializer modelling `json.Marshal` on decoded values

`json.Marshal` of an `interface{}` tree emits compact JSON; map keys are
sorted; `"`, `\`, control characters and (by default) `<`, `>`, `&` are
escaped.  Object fields below are insertion-sorted by key to model Go's map
key sorting (`marshalCapturedEvent` keeps the struct's declared field order,
as Go does for structs).  Serialization uses fuel (every claim evaluates it
only on concrete values of small depth). -/

def hexDigit (n : Nat) : Char :=
  if n < 10 then Char.ofNat ('0'.toNat + n) else Char.ofNat ('a'.toNat + n - 10)

/-- Go JSON escaping of one character (default encoder: HTML-escapes `<`,
`>`, `&`). -/
def goEscapeChar (c : Char) : List Char :=
  if c = '"' then ['\\', '"']
  else if c = '\\' then ['\\', '\\']
  else if c = '\n' then ['\\', 'n']
  else if c = '\r' then ['\\', 'r']
  else if c = '\t' then ['\\', 't']
  else if c = '<' then "\\u003c".data
  else if c = '>' then "\\u003e".data
  else if c = '&' then "\\u0026".data
  else if c.toNat < 0x20 then
    ['\\', 'u', '0', '0', hexDigit (c.toNat / 16), hexDigit (c.toNat % 16)]
  else [c]

/-- Output of `json.Marshal` for a string value. -/
def renderString (s : String) : String :=
  "\"" ++ String.mk (s.data.flatMap goEscapeChar) ++ "\""

/-- Insert a field into a key-sorted field list (ascending byte order, which
for the ASCII keys in play coincides with `String.lt`). -/
def insertField (p : String × Json) : List (String × Json) → List (String × Json)
  | [] => [p]
  | q :: rest => if p.1 < q.1 then p :: q :: rest else q :: insertField p rest

/-- Go's sorted map-key order. -/
def sortFields (fields : List (String × Json)) : List (String × Json) :=
  fields.foldr insertField []

/-- Fuel-indexed body of `Json.render`. -/
def renderF : Nat → Json → String
  | 0, _ => ""
  | _ + 1, Json.null => "null"
  | _ + 1, Json.bool true => "true"
  | _ + 1, Json.bool false => "false"
  | _ + 1, Json.num lexeme => lexeme
  | _ + 1, Json.str s => renderString s
  | fuel + 1, Json.arr elems =>
      "[" ++ joinSep "," (elems.map (renderF fuel)) ++ "]"
  | fuel + 1, Json.obj fields =>
      "\x7b" ++
        joinSep ","
          ((sortFields fields).map (fun p => renderString p.1 ++ ":" ++ renderF fuel p.2)) ++
      "\x7d"

mutual

/-- Nesting depth of a JSON value (fuel bound for `renderF`). -/
def jsonDepth : Json → Nat
  | Json.null => 1
  | Json.bool _ => 1
  | Json.num _ => 1
  | Json.str _ => 1
  | Json.arr elems => jsonDepthElems elems + 1
  | Json.obj fields => jsonDepthFields fields + 1

def jsonDepthElems : List Json → Nat
  | [] => 0
  | e :: rest => max (jsonDepth e) (jsonDepthElems rest)

def jsonDepthFields : List (String × Json) → Nat
  | [] => 0
  | f :: rest => max (jsonDepth f.2) (jsonDepthFields rest)

end

/-- Model of `json.Marshal` on a decoded value (compact output, sorted map
keys). -/
def Json.render (j : Json) : String :=
  renderF (jsonDepth j) j

/-! ## src/capture/main.go — incremental capture file writing

The recorder builds the output file byte-by-byte (all writes are ASCII, so
one `Char` is one byte):

* `initOutputFile` (lines 241–291) writes
  `"{\n"`, then `"  \"startTime\": %q,\n"`, then records the current file
  offset in `eventCountPos`, then writes the placeholder line
  `"  \"eventCount\": 0,\n"` and `"  \"events\": [\n"`.
* `appendEvent` (lines 293–327) writes `",\n"` when the event being appended
  is not the first (`c.session.EventCount > 1`, where `EventCount` has
  already been bumped to include this event), then the `json.Marshal` of the
  `CapturedEvent` with every line prefixed by four spaces.
* `updateEventCount` (lines 329–354) seeks to `eventCountPos` and writes the
  decimal digits of the final count **at that offset**, overwriting whatever
  bytes were there, then restores the write offset.
* `finalizeFile` (lines 365–399) runs `updateEventCount`, then appends
  `"\n  ],\n"`, an optional `"  \"endTime\": %q\n"`, and `"}\n"`.

`fmt.Fprintf`'s `%q` on an RFC3339 timestamp (no characters needing escape)
prints the string wrapped in double quotes; `goQuote` models that.
-/

def goQuote (s : String) : String := "\"" ++ s ++ "\""

/-- Overwrite the bytes of `content` starting at offset `pos` with `t`
(model of `Seek(pos, io.SeekStart)` followed by `WriteString(t)`). -/
def overwriteAt (content : String) (pos : Nat) (t : String) : String :=
  String.mk (content.data.take pos ++ t.data ++ content.data.drop (pos + t.length))

/-- The bytes `initOutputFile` writes before recording `eventCountPos`. -/
def captureHeaderPrefix (startTime : String) : String :=
  "\x7b\n" ++ "  \"startTime\": " ++ goQuote startTime ++ ",\n"

/-- The recorded `eventCountPos` offset. -/
def eventCountPos (startTime : String) : Nat :=
  (captureHeaderPrefix startTime).length

/-- The bytes `initOutputFile` writes after recording `eventCountPos`. -/
def captureHeaderSuffix : String :=
  "  \"eventCount\": 0,\n" ++ "  \"events\": [\n"

/-- Output of `json.Marshal` for a `CapturedEvent{Timestamp, RawData}` (struct fields
keep declared order). -/
def marshalCapturedEvent (timestamp : String) (rawData : Json) : String :=
  "\x7b" ++ renderString "timestamp" ++ ":" ++ renderString timestamp ++ "," ++
    renderString "rawData" ++ ":" ++ rawData.render ++ "\x7d"

/-- Model of `appendEvent`'s indentation loop: first line prefixed `"    "`, each
subsequent line written as `"\n    " ++ line` (lines split on `"\n"`). -/
def indentEventJson (s : String) : String :=
  "    " ++ joinSep "\n    " (splitOnChar '\n' s)

/-- The bytes one `appendEvent` call writes, where `countAfterAppend` is
`c.session.EventCount` after the event was appended to the in-memory slice. -/
def appendEventText (countAfterAppend : Nat) (eventJson : String) : String :=
  (if countAfterAppend > 1 then ",\n" else "") ++ indentEventJson eventJson

/-- The bytes written by appending the events of `eventJsons` one at a time,
`countBefore` events having been appended already. -/
def appendEventsFrom (countBefore : Nat) : List String → String
  | [] => ""
  | e :: rest => appendEventText (countBefore + 1) e ++ appendEventsFrom (countBefore + 1) rest

/-- File content just before finalization, after `initOutputFile` and one
`appendEvent` per element of `eventJsons`. -/
def captureBodyContent (startTime : String) (eventJsons : List String) : String :=
  captureHeaderPrefix startTime ++ captureHeaderSuffix ++ appendEventsFrom 0 eventJsons

/-- The finalized capture file: `updateEventCount` overwrites at
`eventCountPos`, then the closing lines are appended (`finalizeFile`,
src/capture/main.go:365–399; `endTime = ""` models the Go zero value, whose
line is skipped). -/
def finalizedCaptureContent (startTime endTime : String) (eventJsons : List String) : String :=
  overwriteAt (captureBodyContent startTime eventJsons) (eventCountPos startTime)
      (toString eventJsons.length) ++
    "\n  ],\n" ++
    (if endTime ≠ "" then "  \"endTime\": " ++ goQuote endTime ++ "\n" else "") ++
    "\x7d\n"

/-! ## src/internal/mockreplay/replay.go

`CapturedEvent.RawData` is a `json.RawMessage`, i.e. the verbatim bytes of
the captured frame; it is modelled as a `String` of bytes.  `Step.Timestamp`
is produced by `parseTime` (`time.Parse` with RFC3339Nano, zero value on
error); calendar-time parsing is orthogonal to every claim, so the step
carries the source text instead (`timestampRaw`), with `parseTime` left
unmodelled. -/

structure CapturedEventR where
  timestamp : String
  rawData : String

structure CaptureSessionR where
  startTime : String
  endTime : String
  eventCount : Int
  events : List CapturedEventR

structure Step where
  index : Nat
  timestampRaw : String
  raw : String
  eventType : String
  summary : String

/-- Model of `stringFromMap` (src/internal/mockreplay/replay.go:131–141): returns the
value when present and a string, `""` otherwise (a nil Go map, which always
misses, is modelled by `[]`). -/
def stringFromMap (fields : List (String × Json)) (key : String) : String :=
  match lookupJson fields key with
  | some (Json.str s) => s
  | _ => ""

/-- The array branch of `summarize` (raw parsed to `arr` with ≥ 3 elements):
`name` from element 1 (must be a JSON string, `""` otherwise), `eventData`
from element 2 (must be an object, nil map otherwise). -/
def summarizeArr (elems : List Json) : String × String :=
  let name : String :=
    match elems.get? 1 with
    | some (Json.str s) => s
    | _ => ""
  let eventData : List (String × Json) :=
    match elems.get? 2 with
    | some (Json.obj fs) => fs
    | _ => []
  let eventType :=
    let et := stringFromMap eventData "eventType"
    if et = "" then stringFromMap eventData "type" else et
  let phase : String :=
    match lookupJson eventData "data" with
    | some (Json.obj dataFs) =>
        match lookupJson dataFs "timer" with
        | some (Json.obj timerFs) => stringFromMap timerFs "phase"
        | _ => ""
    | _ => ""
  let summary0 := name
  let summary1 := if eventType ≠ "" then summary0 ++ " | " ++ eventType else summary0
  let summary2 := if phase ≠ "" then summary1 ++ " | phase=" ++ phase else summary1
  let summary := if summary2 = "" then "event" else summary2
  (eventType, summary)

/-- The map branch of `summarize` (raw parsed to an object, or to `null`,
which Go unmarshals into a nil map). -/
def summarizeObj (fields : List (String × Json)) : String × String :=
  let eventType :=
    let et := stringFromMap fields "eventType"
    if et = "" then stringFromMap fields "type" else et
  let summary := if eventType = "" then "event" else eventType
  (eventType, summary)

/-- Model of `summarize` (src/internal/mockreplay/replay.go:77–129) on the
raw captured bytes.  `json.Unmarshal` into `[]json.RawMessage` succeeds on an
array (or `null`, leaving a nil slice of length 0 < 3); the fallback
unmarshal into `map[string]any` succeeds on an object or `null`; anything
else reaches the `("unknown", "event")` fallback. -/
def summarize (raw : String) : String × String :=
  match parseJson raw with
  | some (Json.arr elems) =>
      if 3 ≤ elems.length then summarizeArr elems
      else ("unknown", "event")
  | some (Json.obj fields) => summarizeObj fields
  | some Json.null => summarizeObj []
  | _ => ("unknown", "event")

/-- The `Step` built for index `idx` from one captured event. -/
def mkStep (idx : Nat) (ev : CapturedEventR) : Step :=
  { index := idx
    timestampRaw := ev.timestamp
    raw := ev.rawData
    eventType := (summarize ev.rawData).1
    summary := (summarize ev.rawData).2 }

def buildStepsAux (idx : Nat) : List CapturedEventR → List Step
  | [] => []
  | ev :: rest => mkStep idx ev :: buildStepsAux (idx + 1) rest

/-- Model of `BuildSteps` (src/internal/mockreplay/replay.go:49–66): one step
per captured event, in order, indexed from 0.  (The Go function's error
result is always nil.) -/
def BuildSteps (session : CaptureSessionR) : List Step :=
  buildStepsAux 0 session.events

/-- Model of `loadStepsOrExit` (src/capture/mock-champ-select/main.go:259–275)
after a successful file parse: builds the steps and refuses (process exit,
modelled as `Except.error`) when the capture yields zero steps. -/
def loadStepsOrExit (session : CaptureSessionR) : Except String (List Step) :=
  let steps := BuildSteps session
  if steps.length = 0 then Except.error "capture has no steps"
  else Except.ok steps

/-! ## src/capture/mock-champ-select/main.go — replay console state machine

`state` holds the immutable step slice and the cursor `current`.  Console
handling is modelled as a pure transition on the state that also returns the
observable outputs: websocket broadcasts (`hub.broadcast` of the current
step's raw bytes) and the console prints the claims mention.  Go indexes
`s.steps[s.current]` unconditionally; the model reads through `List.getD`
with a dummy default — the cursor invariant theorem shows the index is
always in bounds, so the default is never consulted. -/

/-- Observable console/websocket outputs of one command. -/
inductive ReplayOut where
  /-- The `hub.broadcast(step.Raw)` send plus the `sent step` print
  (`broadcastCurrent`, lines 243–247). -/
  | broadcast (payload : String)
  /-- The `index out of range (0-%d)` print (`setIndex`, line 232). -/
  | rangeMsg (maxIndex : Int)
  /-- the `step %d @ ... | ...` print (`inspect`, lines 254–257). -/
  | inspectMsg (index : Nat) (summary : String)
  /-- The `invalid index %q` print (`jump`, line 224). -/
  | invalidIndexMsg (arg : String)
  /-- help text (`printHelp`). -/
  | helpMsg
  /-- The `Unknown command, type 'help'` print. -/
  | unknownMsg

structure ReplayState where
  steps : List Step
  current : Nat

def dummyStep : Step :=
  { index := 0, timestampRaw := "", raw := "", eventType := "", summary := "" }

def currentStep (s : ReplayState) : Step :=
  s.steps.getD s.current dummyStep

/-- Model of `broadcastCurrent` (lines 243–247). -/
def broadcastCurrentOut (s : ReplayState) : List ReplayOut :=
  [ReplayOut.broadcast (currentStep s).raw]

/-- Model of the `inspect` print (lines 254–257). -/
def inspectOut (s : ReplayState) : List ReplayOut :=
  [ReplayOut.inspectMsg (currentStep s).index (currentStep s).summary]

/-- Model of `setIndex` (src/capture/mock-champ-select/main.go:230–241):
out-of-range targets print the valid range and change nothing; in-range
targets move the cursor and then either broadcast or inspect. -/
def setIndex (s : ReplayState) (idx : Int) (broadcast : Bool) :
    ReplayState × List ReplayOut :=
  if idx < 0 ∨ (s.steps.length : Int) ≤ idx then
    (s, [ReplayOut.rangeMsg ((s.steps.length : Int) - 1)])
  else
    let s' : ReplayState := { s with current := idx.toNat }
    if broadcast then (s', broadcastCurrentOut s')
    else (s', inspectOut s')

/-- Model of `advance` (lines 216–219). -/
def advance (s : ReplayState) (delta : Int) (broadcast : Bool) :
    ReplayState × List ReplayOut :=
  setIndex s ((s.current : Int) + delta) broadcast

/-- Model of `strconv.Atoi`: an optional single sign followed by one or more
ASCII digits and nothing else.  (The 64-bit range error, which `jump` also
treats as invalid input with the cursor unchanged, is not modelled.) -/
def goAtoi (s : String) : Option Int :=
  match s.data with
  | '+' :: ds => (digitsVal ds).map Int.ofNat
  | '-' :: ds => (digitsVal ds).map (fun n => -(n : Int))
  | ds => (digitsVal ds).map Int.ofNat
where
  digitsVal (ds : List Char) : Option Nat :=
    if ds.isEmpty then none
    else if ds.all isDigit then
      some (ds.foldl (fun acc c => acc * 10 + (c.toNat - '0'.toNat)) 0)
    else none

/-- Model of `jump` (lines 221–228): parse the argument; unparsable input prints
`invalid index` and changes nothing, otherwise defer to `setIndex`. -/
def jumpCmd (s : ReplayState) (arg : String) (broadcast : Bool) :
    ReplayState × List ReplayOut :=
  match goAtoi arg with
  | none => (s, [ReplayOut.invalidIndexMsg arg])
  | some idx => setIndex s idx broadcast

/-- One iteration of the REPL dispatch (`runRepl`,
src/capture/mock-champ-select/main.go:174–203) on a trimmed input line
(`quit`/`exit` end the loop without touching the state and are modelled as a
no-op). -/
def replStep (s : ReplayState) (rawLine : String) : ReplayState × List ReplayOut :=
  let line := goTrimSpace rawLine
  if line = "" ∨ line = "help" then (s, [ReplayOut.helpMsg])
  else if line = "next" then advance s 1 true
  else if line = "prev" then advance s (-1) true
  else if goStartsWith line "jump " then
    jumpCmd s (goTrimSpace (goCutLeader line "jump ")) true
  else if goStartsWith line "send " then
    jumpCmd s (goTrimSpace (goCutLeader line "send ")) true
  else if line = "reset" then setIndex s 0 false
  else if line = "inspect" ∨ line = "current" then (s, inspectOut s)
  else if line = "quit" ∨ line = "exit" then (s, [])
  else (s, [ReplayOut.unknownMsg])

/-- Run a whole console session (state only). -/
def replRun (s : ReplayState) : List String → ReplayState
  | [] => s
  | line :: rest => replRun (replStep s line).1 rest

/-! ## src/connector.go — signal emissions of one credential lifecycle

Every outward signal of the connector is sent with the non-blocking
`select { case ch <- v: default: }` idiom: when the consumer is not ready at
that instant the signal is *dropped*, never retried
(src/connector.go:252–255, 260–263, 370–374, 379–382).

`onFileCreated` (lines 231–256) parses the lockfile, calls
`initWebSocket(info)` — which dials and **starts the reader goroutine**
(line 299) — and only then attempts the non-blocking `OnConnect` send.
`onFileRemoved` (lines 258–264) tears the socket down and then attempts the
non-blocking `OnDisconnect` send.

`lifecycleTrace` below grants the spec's ordering claim its most favorable
scheduling: all reader-loop emissions are placed *after* `onFileCreated`'s
connect send and *before* `onFileRemoved`'s disconnect send, and the
reader-loop's own sends all find ready consumers.  Even under that
scheduling, a connect (or disconnect) send that finds no ready consumer is
dropped, so no structural ordering between `connected` and the feed-events
exists. -/

/-- Outward signals of one lifecycle. -/
inductive LifecycleEmit where
  | connected (info : ConnectionInfo) : LifecycleEmit
  | feedEvent (data : Json) : LifecycleEmit
  | terminal : LifecycleEmit
  | disconnected : LifecycleEmit

/-- A non-blocking channel send: delivered iff a consumer is ready. -/
def nbSend (consumerReady : Bool) (e : LifecycleEmit) : List LifecycleEmit :=
  if consumerReady then [e] else []

/-- The reader-loop emissions for a list of frame payloads, via
`connectorFrameEmissions`. -/
def readerEmissions (frames : List Json) : List LifecycleEmit :=
  (frames.flatMap connectorFrameEmissions).map fun e =>
    match e with
    | ConnEmit.champSelect data => LifecycleEmit.feedEvent data
    | ConnEmit.champSelectEnded => LifecycleEmit.terminal

/-- The delivered signals of one credential lifecycle (create → frames →
remove) under the scheduling described in the section comment.
`connectReady` / `disconnectReady` say whether the respective non-blocking
send found a ready consumer. -/
def lifecycleTrace (info : ConnectionInfo) (connectReady : Bool)
    (frames : List Json) (disconnectReady : Bool) : List LifecycleEmit :=
  nbSend connectReady (LifecycleEmit.connected info) ++
    readerEmissions frames ++
    nbSend disconnectReady LifecycleEmit.disconnected

/-- The ordering property the spec asserts: every feed-event in the trace is
preceded by a `connected` emission. -/
def connectedBeforeFeeds (t : List LifecycleEmit) : Prop :=
  ∀ i data, t.get? i = some (LifecycleEmit.feedEvent data) →
    ∃ j, j < i ∧ ∃ info, t.get? j = some (LifecycleEmit.connected info)

/-- The dual ordering property: every feed-event precedes any `disconnected`
emission. -/
def feedsBeforeDisconnected (t : List LifecycleEmit) : Prop :=
  ∀ i j data, t.get? i = some (LifecycleEmit.feedEvent data) →
    t.get? j = some LifecycleEmit.disconnected → i < j

/-! # Theorems settling the claims -/

/-- Sample connection data used by witnesses and counterexamples. -/
def exInfo : ConnectionInfo :=
  { protocol := "https", address := "127.0.0.1", port := "777",
    username := "riot", password := "pw" }

/-- C1: `extractChampSelect` behaves as a total function: an array payload of
length ≥ 3 with an object at index 2 is normalized exactly like that object
itself; the returned body is the candidate's `"data"` map when present as a
map and the candidate itself otherwise; the three synthetic frames of the
spec produce `({x:1}, false)`, `({eventType:Delete}, true)` and
`({x:2}, false)`; and any shape without an interpretable candidate yields
`(nil, false)` (in particular non-array/non-object payloads, arrays shorter
than 3, and arrays whose element 2 is not an object). -/
theorem extractChampSelect_normalizes_totally :
    (∀ (a b : Json) (m : List (String × Json)) (rest : List Json),
      extractChampSelect (Json.arr (a :: b :: Json.obj m :: rest)) =
        extractChampSelect (Json.obj m)) ∧
    (∀ m : List (String × Json),
      (extractChampSelect (Json.obj m)).1 =
        match lookupJson m "data" with
        | some (Json.obj d) => some d
        | _ => some m) ∧
    extractChampSelect (Json.arr [Json.num "5", Json.str "feed",
        Json.obj [("eventType", Json.str "Update"),
                  ("data", Json.obj [("x", Json.num "1")])]]) =
      (some [("x", Json.num "1")], false) ∧
    extractChampSelect (Json.arr [Json.num "5", Json.str "feed",
        Json.obj [("eventType", Json.str "Delete")]]) =
      (some [("eventType", Json.str "Delete")], true) ∧
    extractChampSelect (Json.obj [("eventType", Json.str "Update"),
        ("data", Json.obj [("x", Json.num "2")])]) =
      (some [("x", Json.num "2")], false) ∧
    (∀ raw : Json, candidateEvent raw = none → extractChampSelect raw = (none, false)) ∧
    (∀ elems : List Json, elems.length < 3 →
      extractChampSelect (Json.arr elems) = (none, false)) := by
  refine ⟨?_, ?_, rfl, rfl, rfl, ?_, ?_⟩
  · intro a b m rest
    simp [extractChampSelect, candidateEvent, List.get?]
  · intro m
    cases h : lookupJson m "data" with
    | none => simp [extractChampSelect, candidateEvent, h]
    | some v =>
        cases v <;> simp [extractChampSelect, candidateEvent, h]
  · intro raw h
    simp [extractChampSelect, h]
  · intro elems h
    have : ¬ (elems.length ≥ 3) := by omega
    simp [extractChampSelect, candidateEvent, this]

/-- C1 witness: the hypotheses of the last two conjuncts discharged at
concrete uninterpretable payloads (a bare string and a 2-element array). -/
theorem extractChampSelect_normalizes_totally_witness :
    extractChampSelect (Json.str "noise") = (none, false) ∧
    extractChampSelect (Json.arr [Json.num "5", Json.str "feed"]) = (none, false) :=
  ⟨extractChampSelect_normalizes_totally.2.2.2.2.2.1 (Json.str "noise") rfl,
   extractChampSelect_normalizes_totally.2.2.2.2.2.2
     [Json.num "5", Json.str "feed"] (by decide)⟩

/-- C3: lockfile parsing recovers exactly
`{Port = field 2, Password = field 3, Protocol = field 4}` with the fixed
loopback address and username whenever the trimmed content splits into at
least 5 colon-delimited fields — regardless of fields 0 and 1 or of extra
trailing fields — and produces nothing (no state change, no connect event)
on fewer than 5 fields. -/
theorem lockfile_parse_fixed_positions (content : String) (parts : List String)
    (hsplit : splitOnChar ':' (goTrimSpace content) = parts) :
    (5 ≤ parts.length →
      parseLockfile content = some {
        protocol := parts.getD 4 ""
        address := "127.0.0.1"
        port := parts.getD 2 ""
        username := "riot"
        password := parts.getD 3 "" }) ∧
    (parts.length < 5 →
      parseLockfile content = none) := by
  constructor
  · intro h5
    have : ¬ parts.length < 5 := by omega
    simp [parseLockfile, hsplit, this]
  · intro h5
    simp [parseLockfile, hsplit, h5]

/-- C3 witness: a 6-field lockfile (one extra trailing field) parses to the
fixed-position credentials. -/
theorem lockfile_parse_fixed_positions_witness :
    parseLockfile "LeagueClient:1234:56789:secretpw:https:extra" = some {
      protocol := "https", address := "127.0.0.1", port := "56789",
      username := "riot", password := "secretpw" } :=
  (lockfile_parse_fixed_positions "LeagueClient:1234:56789:secretpw:https:extra"
    ["LeagueClient", "1234", "56789", "secretpw", "https", "extra"] (by decide)).1
    (by decide)

/-- The event text of the single appended event used to exhibit the capture
finalization bug: the synthetic `Delete` marker
(`handleChampSelectEnded`, src/capture/main.go:211–227). -/
def c2DeleteMarkerJson : String :=
  marshalCapturedEvent "2024-01-01T00:00:01Z" (Json.obj [("eventType", Json.str "Delete")])

set_option maxRecDepth 100000 in
/-- C2 (refuted — code bug): finalizing a capture with N = 1 appended event
produces a file in which `updateEventCount` wrote the digit `1` over the
*indentation* of the `  "eventCount": 0,` line — `eventCountPos` was
recorded at the start of that line, not at the placeholder digit — so the
finalized bytes contain the line `1 "eventCount": 0,`: the file is not valid
JSON and the recorded count is still the placeholder `0`, not N. -/
theorem capture_finalize_corrupts_count :
    finalizedCaptureContent "2024-01-01T00:00:00Z" "2024-01-01T00:05:00Z"
        [c2DeleteMarkerJson] =
      "\x7b\n  \"startTime\": \"2024-01-01T00:00:00Z\",\n1 \"eventCount\": 0,\n  \"events\": [\n    \x7b\"timestamp\":\"2024-01-01T00:00:01Z\",\"rawData\":\x7b\"eventType\":\"Delete\"\x7d\x7d\n  ],\n  \"endTime\": \"2024-01-01T00:05:00Z\"\n\x7d\n" ∧
    isValidJson (finalizedCaptureContent "2024-01-01T00:00:00Z"
        "2024-01-01T00:05:00Z" [c2DeleteMarkerJson]) = false := by
  constructor
  · rfl
  · decide

/-- A full feed frame whose body's `eventType` is the lowercase `"delete"`. -/
def lcDeleteFrame : Json :=
  Json.arr [Json.num "8", Json.str champSelectFeed,
    Json.obj [("eventType", Json.str "delete"), ("data", Json.obj [])]]

/-- C5 counterexample: on a frame with `eventType = "delete"` (lowercase),
the live connector's read loop and the capture tool's read loop do *not*
signal terminal — they forward it as an ordinary feed-event (the comparisons
at src/connector.go:369 and src/capture/main.go:667 are case-sensitive) —
whereas the normalizer (`extractChampSelect`, which uses
`strings.EqualFold`) does set the ended flag.  The claim that every
component detects `"Delete"` case-insensitively is therefore false. -/
theorem terminal_detection_not_uniformly_case_insensitive :
    connectorFrameEmissions lcDeleteFrame = [ConnEmit.champSelect (Json.obj [])] ∧
    captureFrameEmissions lcDeleteFrame = [CapEmit.champSelect lcDeleteFrame] ∧
    (extractChampSelect (Json.obj [("eventType", Json.str "delete")])).2 = true := by
  exact ⟨rfl, rfl, rfl⟩

/-- C5 (amended): terminal detection is case-insensitive in the normalizer
(`extractChampSelect` sets the ended flag iff `eventType` case-folds to
`"Delete"`), but case-sensitive in the live connector's and the capture
tool's read loops: those signal terminal exactly when the field equals the
literal `"Delete"`. -/
theorem terminal_detection_casing_by_component (et : String)
    (data : List (String × Json)) :
    (extractChampSelect (Json.obj [("eventType", Json.str et)])).2 =
      asciiEqualFold et "Delete" ∧
    connectorFrameEmissions (Json.arr [Json.num "8", Json.str champSelectFeed,
        Json.obj [("eventType", Json.str et), ("data", Json.obj data)]]) =
      (if et = "Delete" then [ConnEmit.champSelectEnded]
       else [ConnEmit.champSelect (Json.obj data)]) ∧
    captureFrameEmissions (Json.arr [Json.num "8", Json.str champSelectFeed,
        Json.obj [("eventType", Json.str et), ("data", Json.obj data)]]) =
      (if et = "Delete" then [CapEmit.champSelectEnded] else []) ++
        [CapEmit.champSelect (Json.arr [Json.num "8", Json.str champSelectFeed,
          Json.obj [("eventType", Json.str et), ("data", Json.obj data)]])] := by
  refine ⟨rfl, ?_, ?_⟩
  · simp [connectorFrameEmissions, champSelectFeed, List.get?, decodeChampData, lookupJson]
  · simp [captureFrameEmissions, champSelectFeed, List.get?, lookupJson]

/-- An exact-cased `Delete` feed frame. -/
def deleteFrame : Json :=
  Json.arr [Json.num "8", Json.str champSelectFeed,
    Json.obj [("eventType", Json.str "Delete"), ("data", Json.obj [])]]

/-- C6 counterexample: on a terminal (`Delete`) frame the live connector
emits *only* the terminal signal — the read loop `continue`s before the
feed-event send (src/connector.go:369–376), so no feed-event carrying the
body is emitted, contrary to the claim that the connector emits both. -/
theorem connector_delete_emits_no_feed_event :
    connectorFrameEmissions deleteFrame = [ConnEmit.champSelectEnded] := by
  exact rfl

/-- C6 (amended): in the live connector a terminal event triggers only the
distinct terminal signal (the body is not forwarded as a feed-event), while
in the capture tool a terminal event triggers both the terminal signal and
the raw-payload feed-event; non-terminal events are emitted only as
feed-events in both. -/
theorem terminal_emission_by_component (et : String) (data : List (String × Json)) :
    (et = "Delete" →
      connectorFrameEmissions (Json.arr [Json.num "8", Json.str champSelectFeed,
          Json.obj [("eventType", Json.str et), ("data", Json.obj data)]]) =
        [ConnEmit.champSelectEnded] ∧
      captureFrameEmissions (Json.arr [Json.num "8", Json.str champSelectFeed,
          Json.obj [("eventType", Json.str et), ("data", Json.obj data)]]) =
        [CapEmit.champSelectEnded,
         CapEmit.champSelect (Json.arr [Json.num "8", Json.str champSelectFeed,
           Json.obj [("eventType", Json.str et), ("data", Json.obj data)]])]) ∧
    (et ≠ "Delete" →
      connectorFrameEmissions (Json.arr [Json.num "8", Json.str champSelectFeed,
          Json.obj [("eventType", Json.str et), ("data", Json.obj data)]]) =
        [ConnEmit.champSelect (Json.obj data)] ∧
      captureFrameEmissions (Json.arr [Json.num "8", Json.str champSelectFeed,
          Json.obj [("eventType", Json.str et), ("data", Json.obj data)]]) =
        [CapEmit.champSelect (Json.arr [Json.num "8", Json.str champSelectFeed,
          Json.obj [("eventType", Json.str et), ("data", Json.obj data)]])]) := by
  constructor
  · intro h
    subst h
    exact ⟨rfl, rfl⟩
  · intro h
    constructor
    · simp [connectorFrameEmissions, champSelectFeed, List.get?, decodeChampData,
        lookupJson, h]
    · simp [captureFrameEmissions, champSelectFeed, List.get?, lookupJson, h]

/-- C6 witness: the amended routing evaluated at a terminal and at an
`Update` frame. -/
theorem terminal_emission_by_component_witness :
    connectorFrameEmissions (Json.arr [Json.num "8", Json.str champSelectFeed,
        Json.obj [("eventType", Json.str "Delete"), ("data", Json.obj [])]]) =
      [ConnEmit.champSelectEnded] ∧
    connectorFrameEmissions (Json.arr [Json.num "8", Json.str champSelectFeed,
        Json.obj [("eventType", Json.str "Update"), ("data", Json.obj [])]]) =
      [ConnEmit.champSelect (Json.obj [])] :=
  ⟨((terminal_emission_by_component "Delete" []).1 rfl).1,
   ((terminal_emission_by_component "Update" []).2 (by decide)).1⟩

/-- The connector state after one successful `Stop`. -/
def stoppedConnector : ConnectorHandles :=
  { wsConn := false, lockfileWatcher := false, processTicker := false,
    stopCh := { closed := true } }

/-- C9 counterexample: `Stop` on a fresh connector closes the stop channel,
but a second `Stop` on the already-stopped connector panics — `close` at
src/connector.go:144 runs unconditionally, with no `sync.Once` guard, and Go
panics on closing a closed channel.  Stop is therefore not idempotent. -/
theorem double_stop_panics :
    connectorStop freshConnector = Except.ok stoppedConnector ∧
    connectorStop stoppedConnector = Except.error "close of closed channel" :=
  ⟨rfl, rfl⟩

/-- C9 (amended): `Stop()` closes the shared stop channel when it is still
open, but it is not safe against a double call: on an already-stopped
connector `close(l.stopCh)` panics with "close of closed channel". -/
theorem connector_stop_not_idempotent (l : ConnectorHandles) :
    (l.stopCh.closed = false → connectorStop l = Except.ok stoppedConnector) ∧
    (l.stopCh.closed = true →
      connectorStop l = Except.error "close of closed channel") := by
  constructor
  · intro h
    simp [connectorStop, closeCh, h, stoppedConnector]
  · intro h
    simp [connectorStop, closeCh, h]

/-- C9 witness: the amended statement applied to a fresh connector and to a
stopped one. -/
theorem connector_stop_not_idempotent_witness :
    connectorStop freshConnector = Except.ok stoppedConnector ∧
    connectorStop stoppedConnector = Except.error "close of closed channel" :=
  ⟨(connector_stop_not_idempotent freshConnector).1 rfl,
   (connector_stop_not_idempotent stoppedConnector).2 rfl⟩

def dummyCapturedEvent : CapturedEventR := { timestamp := "", rawData := "" }

lemma buildStepsAux_length (evs : List CapturedEventR) :
    ∀ idx, (buildStepsAux idx evs).length = evs.length := by
  induction evs with
  | nil => intro idx; rfl
  | cons ev rest ih =>
      intro idx
      simp [buildStepsAux, ih (idx + 1)]

lemma buildStepsAux_map_raw (evs : List CapturedEventR) :
    ∀ idx, (buildStepsAux idx evs).map Step.raw = evs.map CapturedEventR.rawData := by
  induction evs with
  | nil => intro idx; rfl
  | cons ev rest ih =>
      intro idx
      simp [buildStepsAux, mkStep, ih (idx + 1)]

lemma buildStepsAux_getD (evs : List CapturedEventR) :
    ∀ idx i, i < evs.length →
      (buildStepsAux idx evs).getD i dummyStep =
        mkStep (idx + i) (evs.getD i dummyCapturedEvent) := by
  induction evs with
  | nil => intro idx i h; simp at h
  | cons ev rest ih =>
      intro idx i h
      cases i with
      | zero => simp [buildStepsAux]
      | succ i' =>
          have h' : i' < rest.length := by
            simp only [List.length_cons] at h
            omega
          have heq : idx + 1 + i' = idx + (i' + 1) := by omega
          calc (buildStepsAux idx (ev :: rest)).getD (i' + 1) dummyStep
              = (buildStepsAux (idx + 1) rest).getD i' dummyStep := by
                simp [buildStepsAux]
            _ = mkStep (idx + 1 + i') (rest.getD i' dummyCapturedEvent) :=
                ih (idx + 1) i' h'
            _ = mkStep (idx + (i' + 1)) ((ev :: rest).getD (i' + 1) dummyCapturedEvent) := by
                rw [heq]
                rfl

/-- C4: `BuildSteps` produces exactly one step per captured event in original
order, with `steps[i].Index = i` and `steps[i].Raw` byte-identical to
`events[i].rawData`; broadcasting the steps in index order (as
`broadcastCurrent` does at each cursor position) therefore reproduces the
original `events[].rawData` byte sequence — and since `BuildSteps` is a pure
function of the session, two replays of the same capture broadcast
byte-identical sequences. -/
theorem buildSteps_faithful_ordered_replay (session : CaptureSessionR) :
    (BuildSteps session).length = session.events.length ∧
    (BuildSteps session).map Step.raw = session.events.map CapturedEventR.rawData ∧
    (∀ i, i < session.events.length →
      ((BuildSteps session).getD i dummyStep).index = i ∧
      ((BuildSteps session).getD i dummyStep).raw =
        (session.events.getD i dummyCapturedEvent).rawData) ∧
    (∀ i, i < session.events.length →
      broadcastCurrentOut { steps := BuildSteps session, current := i } =
        [ReplayOut.broadcast ((session.events.getD i dummyCapturedEvent).rawData)]) := by
  have hget : ∀ i, i < session.events.length →
      (BuildSteps session).getD i dummyStep =
        mkStep i (session.events.getD i dummyCapturedEvent) := by
    intro i h
    simpa using buildStepsAux_getD session.events 0 i h
  refine ⟨buildStepsAux_length session.events 0,
    buildStepsAux_map_raw session.events 0, ?_, ?_⟩
  · intro i h
    rw [hget i h]
    exact ⟨rfl, rfl⟩
  · intro i h
    simp only [broadcastCurrentOut, currentStep]
    rw [hget i h]
    rfl

/-- A concrete two-event capture session used by witnesses. -/
def exSession : CaptureSessionR where
  startTime := "S"
  endTime := "E"
  eventCount := 2
  events :=
    [{ timestamp := "T0", rawData := "\x7b\"eventType\":\"Create\"\x7d" },
     { timestamp := "T1", rawData := "\x7b\"eventType\":\"Delete\"\x7d" }]

/-- C4 witness: the per-index conjuncts evaluated on a concrete two-event
session. -/
theorem buildSteps_faithful_ordered_replay_witness :
    ((BuildSteps exSession).getD 1 dummyStep).index = 1 ∧
    ((BuildSteps exSession).getD 1 dummyStep).raw = "\x7b\"eventType\":\"Delete\"\x7d" :=
  (buildSteps_faithful_ordered_replay exSession).2.2.1 1 (by decide)

/-- A non-terminal `Update` feed frame. -/
def updateFrame : Json :=
  Json.arr [Json.num "8", Json.str champSelectFeed,
    Json.obj [("eventType", Json.str "Update"), ("data", Json.obj [])]]

/-- C7 counterexample: the connector's signals are all sent with the
non-blocking send-or-drop idiom, so nothing structural orders `connected`
before the lifecycle's feed-events: in the lifecycle in which the
`OnConnect` send at src/connector.go:252–255 finds no ready consumer, the
trace contains a feed-event with *no* `connected` emission before it (even
under the scheduling most favorable to the claim). -/
theorem feed_event_without_connected :
    lifecycleTrace exInfo false [updateFrame] true =
      [LifecycleEmit.feedEvent (Json.obj []), LifecycleEmit.disconnected] ∧
    ¬ connectedBeforeFeeds (lifecycleTrace exInfo false [updateFrame] true) := by
  constructor
  · rfl
  · intro hcb
    obtain ⟨j, hj, info, hjget⟩ := hcb 0 (Json.obj []) rfl
    omega

lemma readerEmissions_shape (frames : List Json) :
    ∀ e ∈ readerEmissions frames,
      (∃ d, e = LifecycleEmit.feedEvent d) ∨ e = LifecycleEmit.terminal := by
  intro e he
  simp only [readerEmissions, List.mem_map] at he
  obtain ⟨a, _, rfl⟩ := he
  cases a with
  | champSelect d => exact Or.inl ⟨d, rfl⟩
  | champSelectEnded => exact Or.inr rfl

/-- C7 (amended): within one lifecycle, `connected` precedes every
feed-event and `disconnected` follows every feed-event *provided every
non-blocking send finds a ready consumer and the reader's frames are handled
after `onFileCreated`'s connect send* — the order is produced by that
scheduling plus delivery, not enforced structurally: `initWebSocket` starts
the reader goroutine before the `OnConnect` send is even attempted, and a
dropped send (see the counterexample) loses the ordering. -/
theorem lifecycle_order_with_ready_consumers (info : ConnectionInfo)
    (frames : List Json) :
    lifecycleTrace info true frames true =
      LifecycleEmit.connected info ::
        (readerEmissions frames ++ [LifecycleEmit.disconnected]) ∧
    connectedBeforeFeeds (lifecycleTrace info true frames true) ∧
    feedsBeforeDisconnected (lifecycleTrace info true frames true) := by
  have htr : lifecycleTrace info true frames true =
      LifecycleEmit.connected info ::
        (readerEmissions frames ++ [LifecycleEmit.disconnected]) := by
    simp [lifecycleTrace, nbSend]
  refine ⟨htr, ?_, ?_⟩
  · intro i data hi
    rw [htr] at hi
    cases i with
    | zero => simp at hi
    | succ i' =>
        refine ⟨0, Nat.succ_pos i', info, ?_⟩
        rw [htr]
        rfl
  · intro i j data hi hj
    rw [htr] at hi hj
    cases i with
    | zero => simp at hi
    | succ i' =>
        cases j with
        | zero => simp at hj
        | succ j' =>
            simp only [List.get?_cons_succ] at hi hj
            have hi' : i' < (readerEmissions frames).length := by
              by_contra hge
              push_neg at hge
              rw [List.get?_append_right hge] at hi
              rcases hn : i' - (readerEmissions frames).length with _ | n
              · rw [hn] at hi; simp at hi
              · rw [hn] at hi; simp at hi
            have hj' : (readerEmissions frames).length ≤ j' := by
              by_contra hlt
              push_neg at hlt
              rw [List.get?_append hlt] at hj
              have hmem := List.get?_mem hj
              rcases readerEmissions_shape frames _ hmem with ⟨d, hd⟩ | ht
              · exact LifecycleEmit.noConfusion hd
              · exact LifecycleEmit.noConfusion ht
            omega

/-- C8: console boundary behavior.  `jump <n>` (and its alias `send <n>`)
with `n` outside `[0, len(steps)-1]` leaves the cursor unchanged, broadcasts
nothing, and prints the valid range; in-range `jump`/`send`/`next`/`prev`
set the cursor and broadcast the new current step's raw bytes; `reset`
always sets the cursor to 0 without broadcasting (it inspects instead). -/
theorem console_boundary_behavior (steps : List Step) (cur : Nat) (n : Int)
    (arg : String) (hne : steps ≠ []) (hcur : cur < steps.length)
    (hparse : goAtoi arg = some n) :
    ((n < 0 ∨ (steps.length : Int) ≤ n) →
      jumpCmd ⟨steps, cur⟩ arg true =
        (⟨steps, cur⟩, [ReplayOut.rangeMsg ((steps.length : Int) - 1)])) ∧
    (0 ≤ n → n < (steps.length : Int) →
      jumpCmd ⟨steps, cur⟩ arg true =
        (⟨steps, n.toNat⟩,
         [ReplayOut.broadcast ((steps.getD n.toNat dummyStep).raw)])) ∧
    ((cur + 1 : Int) < (steps.length : Int) →
      replStep ⟨steps, cur⟩ "next" =
        (⟨steps, cur + 1⟩,
         [ReplayOut.broadcast ((steps.getD (cur + 1) dummyStep).raw)])) ∧
    (1 ≤ cur →
      replStep ⟨steps, cur⟩ "prev" =
        (⟨steps, cur - 1⟩,
         [ReplayOut.broadcast ((steps.getD (cur - 1) dummyStep).raw)])) ∧
    replStep ⟨steps, cur⟩ "reset" =
      (⟨steps, 0⟩,
       [ReplayOut.inspectMsg ((steps.getD 0 dummyStep).index)
          ((steps.getD 0 dummyStep).summary)]) := by
  have hlenpos : 0 < steps.length := List.length_pos.mpr hne
  refine ⟨?_, ?_, ?_, ?_, ?_⟩
  · intro hout
    simp only [jumpCmd, hparse, setIndex]
    rw [if_pos hout]
  · intro h0 hlt
    have hcond : ¬ (n < 0 ∨ (steps.length : Int) ≤ n) := by omega
    simp only [jumpCmd, hparse, setIndex]
    rw [if_neg hcond, if_pos trivial]
    rfl
  · intro hlt
    have hstep : replStep ⟨steps, cur⟩ "next" =
        advance ⟨steps, cur⟩ 1 true := rfl
    have hcond : ¬ (((cur : Int) + 1) < 0 ∨ (steps.length : Int) ≤ (cur : Int) + 1) := by
      omega
    have htn : ((cur : Int) + 1).toNat = cur + 1 := by omega
    rw [hstep]
    simp only [advance, setIndex]
    rw [if_neg hcond, if_pos trivial, htn]
    rfl
  · intro hge
    have hstep : replStep ⟨steps, cur⟩ "prev" =
        advance ⟨steps, cur⟩ (-1) true := rfl
    have hcond : ¬ (((cur : Int) + (-1)) < 0 ∨
        (steps.length : Int) ≤ (cur : Int) + (-1)) := by omega
    have htn : ((cur : Int) + (-1)).toNat = cur - 1 := by omega
    rw [hstep]
    simp only [advance, setIndex]
    rw [if_neg hcond, if_pos trivial, htn]
    rfl
  · have hstep : replStep ⟨steps, cur⟩ "reset" =
        setIndex ⟨steps, cur⟩ 0 false := rfl
    have hcond : ¬ ((0 : Int) < 0 ∨ (steps.length : Int) ≤ 0) := by omega
    rw [hstep]
    simp only [setIndex]
    rw [if_neg hcond]
    rfl

/-- C8 witness: on a two-step state at cursor 0, `jump 5` is rejected with
the valid range `0-1` and the cursor untouched, while `next` moves to step 1
and broadcasts its raw bytes. -/
theorem console_boundary_behavior_witness :
    jumpCmd ⟨BuildSteps exSession, 0⟩ "5" true =
      (⟨BuildSteps exSession, 0⟩, [ReplayOut.rangeMsg 1]) ∧
    replStep ⟨BuildSteps exSession, 0⟩ "next" =
      (⟨BuildSteps exSession, 1⟩,
       [ReplayOut.broadcast "\x7b\"eventType\":\"Delete\"\x7d"]) := by
  have h := console_boundary_behavior (BuildSteps exSession) 0 5 "5"
    (by simp [BuildSteps, exSession, buildStepsAux]) (by decide) (by decide)
  exact ⟨h.1 (by decide), h.2.2.1 (by decide)⟩

lemma setIndex_preserves (s : ReplayState) (idx : Int) (b : Bool)
    (h : s.current < s.steps.length) :
    (setIndex s idx b).1.steps = s.steps ∧
    (setIndex s idx b).1.current < s.steps.length := by
  by_cases hc : idx < 0 ∨ (s.steps.length : Int) ≤ idx
  · simp only [setIndex]
    rw [if_pos hc]
    exact ⟨rfl, h⟩
  · simp only [setIndex]
    rw [if_neg hc]
    have : idx.toNat < s.steps.length := by omega
    cases b
    · exact ⟨rfl, this⟩
    · exact ⟨rfl, this⟩

lemma replStep_preserves (s : ReplayState) (line : String)
    (h : s.current < s.steps.length) :
    (replStep s line).1.steps = s.steps ∧
    (replStep s line).1.current < s.steps.length := by
  simp only [replStep]
  split
  · exact ⟨rfl, h⟩
  · split
    · exact setIndex_preserves s _ true h
    · split
      · exact setIndex_preserves s _ true h
      · split
        · unfold jumpCmd
          cases goAtoi (goTrimSpace (goCutLeader (goTrimSpace line) "jump "))
          · exact ⟨rfl, h⟩
          · exact setIndex_preserves s _ true h
        · split
          · unfold jumpCmd
            cases goAtoi (goTrimSpace (goCutLeader (goTrimSpace line) "send "))
            · exact ⟨rfl, h⟩
            · exact setIndex_preserves s _ true h
          · split
            · exact setIndex_preserves s 0 false h
            · split
              · exact ⟨rfl, h⟩
              · split
                · exact ⟨rfl, h⟩
                · exact ⟨rfl, h⟩

lemma replRun_preserves (lines : List String) :
    ∀ s : ReplayState, s.current < s.steps.length →
      (replRun s lines).steps = s.steps ∧
      (replRun s lines).current < s.steps.length := by
  induction lines with
  | nil => intro s h; exact ⟨rfl, h⟩
  | cons line rest ih =>
      intro s h
      have hstep := replStep_preserves s line h
      have := ih (replStep s line).1 (by rw [hstep.1]; exact hstep.2)
      simp only [replRun]
      rw [this.1, hstep.1]
      refine ⟨rfl, ?_⟩
      rw [← hstep.1]
      exact this.2

/-- C10: the replay cursor is always a valid index into the step sequence.
`loadStepsOrExit` refuses (process exit) any capture yielding zero steps, so
a started server has `0 < len(steps)`; the cursor starts at 0; every console
command goes through `setIndex`, which rejects out-of-range targets; hence
after any command sequence the cursor stays in bounds and the step slice is
never mutated — the `steps[current]` reads in the health handler, `inspect`,
`broadcastCurrent` and `sendCurrent` can never access out of bounds. -/
theorem replay_cursor_always_in_bounds (session : CaptureSessionR)
    (steps : List Step) (lines : List String)
    (hload : loadStepsOrExit session = Except.ok steps) :
    0 < steps.length ∧
    (replRun ⟨steps, 0⟩ lines).steps = steps ∧
    (replRun ⟨steps, 0⟩ lines).current < steps.length ∧
    (∀ sess : CaptureSessionR, BuildSteps sess = [] →
      loadStepsOrExit sess = Except.error "capture has no steps") := by
  have hpos : 0 < steps.length := by
    by_cases hz : (BuildSteps session).length = 0
    · simp [loadStepsOrExit, hz] at hload
    · simp only [loadStepsOrExit] at hload
      rw [if_neg hz] at hload
      cases hload
      omega
  have hrun := replRun_preserves lines ⟨steps, 0⟩ hpos
  exact ⟨hpos, hrun.1, hrun.2,
    fun sess hnil => by simp [loadStepsOrExit, hnil]⟩

/-- C10 witness: the invariant evaluated on the concrete two-event session
and a command sequence that exercises accepted, rejected and unknown
commands. -/
theorem replay_cursor_always_in_bounds_witness :
    0 < (BuildSteps exSession).length ∧
    (replRun ⟨BuildSteps exSession, 0⟩ ["next", "jump 7", "prev", "bogus"]).current <
      (BuildSteps exSession).length := by
  have h := replay_cursor_always_in_bounds exSession (BuildSteps exSession)
    ["next", "jump 7", "prev", "bogus"]
    (by rw [loadStepsOrExit, if_neg (by decide)])
  exact ⟨h.1, h.2.2.1⟩

end Rez
